import Mathlib

/-!
Shallow embedding of the go-limit fixed-window HTTP rate limiter
(`limit.go`) and proofs about its behaviour.

The embedding models:
* `ipAddrFromRemoteAddr`, `getAddress` — client-address resolution;
* `NewLimiter` / `buildLimitsMap` — rule-table construction (last rule wins);
* `expire` (here `expireGo`), `setHeaders`, `Handle` — the per-request
  decision pipeline against an abstract counter store.

The store is modelled as a per-request oracle (`Store`): each operation
returns either a value or an error string, exactly the shape of the Go
client calls `Incr`, `Expire`, `Ttl`.  `Handle` returns a `HandleResult`
recording the observable effects of one request: whether the wrapped
handler was invoked, the status code written by the middleware (if any),
the response headers it set, the body it wrote, and the ordered trace of
store calls it issued.
-/

namespace GoLimit

/-- A rate-limit rule: HTTP method, exact path, quota and window length
in seconds (`Limit` in limit.go; `int64` fields become `Int`). -/
structure Limit where
  method : String
  path : String
  requests : Int
  duration : Int
deriving DecidableEq

/-- The limiter configuration: the proxy header to read the client address
from (empty string means: use the transport `RemoteAddr`), and the rule
table built by `NewLimiter`. -/
structure Limiter where
  header : String
  limitsMap : String → Option Limit

/-- An incoming HTTP request, reduced to the fields `Handle` consumes.
`headers` models `r.Header.Get`: it returns the header value, or the empty
string when the header is absent. -/
structure Request where
  method : String
  path : String
  remoteAddr : String
  headers : String → String

/-- The counter-store oracle for one request: each operation either
succeeds with a value or fails with an error, mirroring the redis client
calls `Incr`, `Expire` and `Ttl` in limit.go. -/
structure Store where
  incr : String → Except String Int
  expire : String → Int → Except String Bool
  ttl : String → Except String Int

/-- A store call issued by the middleware, recorded in order. -/
inductive StoreCall where
  | incr (key : String)
  | expire (key : String) (duration : Int)
  | ttl (key : String)
deriving DecidableEq

/-- The observable outcome of one `Handle` invocation. `status` is the
code passed to `WriteHeader` by the middleware itself (`none` when the
middleware never writes a status, i.e. on passthrough), `body` is what the
middleware wrote to the response body, and `storeCalls` the trace of store
operations. -/
structure HandleResult where
  handlerInvoked : Bool
  status : Option Nat
  headers : List (String × String)
  body : String
  storeCalls : List StoreCall
deriving DecidableEq

/-- Index of the last occurrence of `c`, or `none`
(`strings.LastIndex(s, ":")` returns -1 when absent). -/
def lastIndexOfChar (c : Char) : List Char → Option Nat
  | [] => none
  | x :: xs =>
    match lastIndexOfChar c xs with
    | some i => some (i + 1)
    | none => if x = c then some 0 else none

/-- `ipAddrFromRemoteAddr` from limit.go, on character lists: keep the
prefix before the last colon; return the string unchanged when it has no
colon. -/
def ipAddrFromRemoteAddrL (s : List Char) : List Char :=
  match lastIndexOfChar ':' s with
  | none => s
  | some i => s.take i

/-- `ipAddrFromRemoteAddr` from limit.go. -/
def ipAddrFromRemoteAddr (s : String) : String :=
  String.mk (ipAddrFromRemoteAddrL s.data)

/-- `strings.Split(s, c)` for a one-character separator: always returns at
least one (possibly empty) field. -/
def splitOnChar (c : Char) : List Char → List (List Char)
  | [] => [[]]
  | x :: xs =>
    match splitOnChar c xs with
    | [] => [[x]]
    | y :: ys => if x = c then [] :: y :: ys else (x :: y) :: ys

/-- `strings.Split(headerVal, ",")`. -/
def splitComma (s : String) : List String :=
  (splitOnChar ',' s.data).map String.mk

/-- `strings.TrimSpace` on character lists: drop whitespace from both
ends. -/
def trimSpaceL (s : List Char) : List Char :=
  ((s.dropWhile Char.isWhitespace).reverse.dropWhile Char.isWhitespace).reverse

/-- `strings.TrimSpace`. -/
def trimSpace (s : String) : String :=
  String.mk (trimSpaceL s.data)

/-- The address-processing pipeline of `getAddress`: first comma-separated
entry, trimmed, with the port (text from the last colon on) stripped. -/
def resolvedOf (headerVal : String) : String :=
  ipAddrFromRemoteAddr (trimSpace ((splitComma headerVal).headD ""))

/-- The body of `getAddress` after the header value has been fetched:
process the value and fail when the result is empty. -/
def getAddressRaw (headerVal : String) : Except String String :=
  let address := resolvedOf headerVal
  if address = "" then Except.error "Could not read address" else Except.ok address

/-- The raw value `getAddress` starts from: `r.RemoteAddr` when no header
is configured, the configured header's value otherwise. -/
def headerValOf (r : Request) (header : String) : String :=
  if header = "" then r.remoteAddr else r.headers header

/-- `getAddress` from limit.go. -/
def getAddress (r : Request) (header : String) : Except String String :=
  getAddressRaw (headerValOf r header)

/-- The counting key built in `Handle`:
`"go-ratelimit:(" + address + ")" + r.Method + r.URL.Path`. -/
def mkKey (address method path : String) : String :=
  "go-ratelimit:(" ++ address ++ ")" ++ method ++ path

/-- `expire` from limit.go: arm the TTL only when the increment created
the key (`count == 1`); surface the store error, drop the boolean. -/
def expireGo (store : Store) (count : Int) (key : String) (duration : Int) :
    Except String Unit :=
  if count = 1 then
    match store.expire key duration with
    | Except.error e => Except.error e
    | Except.ok _ => Except.ok ()
  else Except.ok ()

/-- `setHeaders` from limit.go: clamp `Requests - count` at zero, set the
two rate-limit headers, and set `Retry-After` only when `timeout >= 0`. -/
def setHeaders (limit : Limit) (count timeout : Int) : List (String × String) :=
  let remaining := limit.requests - count
  let remaining := if remaining < 0 then 0 else remaining
  [("X-RateLimit-Remaining", toString remaining),
   ("X-RateLimit-Limit", toString limit.requests)] ++
    (if 0 ≤ timeout then [("Retry-After", toString timeout)] else [])

/-- One step of the rule-table construction loop in `NewLimiter`:
`lMap[limit.Method + ":" + limit.Path] = limit`, i.e. the new map answers
`limit` at that key and defers to the old map elsewhere. -/
def limitsStep (m : String → Option Limit) (limit : Limit) : String → Option Limit :=
  fun k => if limit.method ++ ":" ++ limit.path = k then some limit else m k

/-- The rule table built by `NewLimiter`: insert the rules in order, later
rules overwriting earlier ones at the same key. -/
def buildLimitsMap (limits : List Limit) : String → Option Limit :=
  limits.foldl limitsStep (fun _ => none)

/-- `NewLimiter` from limit.go (the redis-connection plumbing is outside
the model; the store is passed to `Handle` directly). -/
def NewLimiter (limits : List Limit) (header : String) : Limiter :=
  { header := header, limitsMap := buildLimitsMap limits }

/-- `Handle` from limit.go, as a function from the limiter, the store
oracle and the request to the observable outcome. -/
def Handle (l : Limiter) (store : Store) (r : Request) : HandleResult :=
  match l.limitsMap (r.method ++ ":" ++ r.path) with
  | none =>
    { handlerInvoked := true, status := none, headers := [], body := "",
      storeCalls := [] }
  | some limit =>
    match getAddress r l.header with
    | Except.error _ =>
      { handlerInvoked := false, status := some 400, headers := [], body := "",
        storeCalls := [] }
    | Except.ok address =>
      let key := mkKey address r.method r.path
      match store.incr key with
      | Except.error _ =>
        { handlerInvoked := false, status := some 500, headers := [], body := "",
          storeCalls := [StoreCall.incr key] }
      | Except.ok count =>
        let ecalls := if count = 1 then [StoreCall.expire key limit.duration] else []
        match expireGo store count key limit.duration with
        | Except.error _ =>
          { handlerInvoked := false, status := some 500, headers := [], body := "",
            storeCalls := StoreCall.incr key :: ecalls }
        | Except.ok _ =>
          if count > limit.requests then
            match store.ttl key with
            | Except.error _ =>
              { handlerInvoked := false, status := some 500, headers := [], body := "",
                storeCalls := StoreCall.incr key :: (ecalls ++ [StoreCall.ttl key]) }
            | Except.ok timeout =>
              { handlerInvoked := false, status := some 429,
                headers := setHeaders limit count timeout, body := "",
                storeCalls := StoreCall.incr key :: (ecalls ++ [StoreCall.ttl key]) }
          else
            { handlerInvoked := true, status := none,
              headers := setHeaders limit count (-1), body := "",
              storeCalls := StoreCall.incr key :: ecalls }

/-- Look a header up in a header list (first binding wins; the middleware
sets each header name at most once). -/
def findHeader (hs : List (String × String)) (name : String) : Option String :=
  (hs.find? fun p => p.1 = name).map Prod.snd

/-- Look a header up in a `HandleResult`. -/
def getHeader (res : HandleResult) (name : String) : Option String :=
  findHeader res.headers name

/-- Whether a store call is an `expire` call. -/
def isExpireCall : StoreCall → Bool
  | StoreCall.expire _ _ => true
  | _ => false

/-! ### Concrete fixtures used by witnesses -/

/-- A concrete rule: `GET /t`, quota 5, window 30 s. -/
def fixLimit : Limit := { method := "GET", path := "/t", requests := 5, duration := 30 }

/-- A concrete limiter over `fixLimit`, reading the transport address. -/
def fixLimiter : Limiter := NewLimiter [fixLimit] ""

/-- A concrete direct request matching `fixLimit`. -/
def fixReq : Request :=
  { method := "GET", path := "/t", remoteAddr := "9.9.9.9:1234", headers := fun _ => "" }

/-- A store oracle whose increment always answers `c` and whose TTL query
always answers `t`, with every operation succeeding. -/
def okStore (c t : Int) : Store :=
  { incr := fun _ => Except.ok c, expire := fun _ _ => Except.ok true,
    ttl := fun _ => Except.ok t }

/-- A store oracle whose increment always fails. -/
def incrErrStore : Store :=
  { incr := fun _ => Except.error "connection lost",
    expire := fun _ _ => Except.ok true, ttl := fun _ => Except.ok 10 }

/-- A concrete limiter over `fixLimit` that reads the client address from
the `X-Forwarded-For` header. -/
def fwdLimiter : Limiter := NewLimiter [fixLimit] "X-Forwarded-For"

/-- A concrete request for a route with no configured rule. -/
def otherReq : Request :=
  { method := "POST", path := "/x", remoteAddr := "8.8.8.8:17", headers := fun _ => "" }

/-- A concrete request carrying `X-Forwarded-For: 7.7.7.7` over one
transport peer, with another unrelated header set. -/
def proxiedReq1 : Request :=
  { method := "GET", path := "/t", remoteAddr := "1.1.1.1:11",
    headers := fun h => if h = "X-Forwarded-For" then "7.7.7.7" else "zzz" }

/-- A concrete request with the same `X-Forwarded-For` value as
`proxiedReq1` but a different transport peer and different other
headers. -/
def proxiedReq2 : Request :=
  { method := "GET", path := "/t", remoteAddr := "2.2.2.2:99",
    headers := fun h => if h = "X-Forwarded-For" then "7.7.7.7" else "" }

/-- The ways a request's store interaction can fail in `Handle`: the
increment fails; or the increment creates the key (`count = 1`) and the
expire call fails; or the increment and expire step succeed, the count is
over quota, and the TTL query fails. -/
def storeFailsAt (store : Store) (key : String) (limit : Limit) : Prop :=
  (∃ e, store.incr key = Except.error e) ∨
  (store.incr key = Except.ok 1 ∧ ∃ e, store.expire key limit.duration = Except.error e) ∨
  (∃ count, store.incr key = Except.ok count ∧
    expireGo store count key limit.duration = Except.ok () ∧
    limit.requests < count ∧ ∃ e, store.ttl key = Except.error e)

/-! ### Helper lemmas -/

/-- Clamping at zero from below is `max 0`. -/
lemma clamp_eq_max (x : Int) : (if x < 0 then 0 else x) = max 0 x := by
  omega

/-- `setHeaders` always sets `X-RateLimit-Remaining` to the clamped
difference. -/
lemma findHeader_setHeaders_remaining (limit : Limit) (count timeout : Int) :
    findHeader (setHeaders limit count timeout) "X-RateLimit-Remaining" =
      some (toString (max 0 (limit.requests - count))) := by
  simp [setHeaders, findHeader]
  congr 1
  omega

/-- `setHeaders` always sets `X-RateLimit-Limit` to the quota. -/
lemma findHeader_setHeaders_limit (limit : Limit) (count timeout : Int) :
    findHeader (setHeaders limit count timeout) "X-RateLimit-Limit" =
      some (toString limit.requests) := by
  simp [setHeaders, findHeader]

/-- `setHeaders` sets `Retry-After` exactly when the timeout is
non-negative, and then to the timeout itself. -/
lemma findHeader_setHeaders_retry (limit : Limit) (count timeout : Int) :
    findHeader (setHeaders limit count timeout) "Retry-After" =
      (if 0 ≤ timeout then some (toString timeout) else none) := by
  by_cases h : 0 ≤ timeout <;> simp [setHeaders, findHeader, h]

/-! ### Claim theorems -/

/-- C1: for a request matching a rule with quota `limit.requests`, whose
increment returns `count` (and whose expire/ttl calls succeed), the
wrapped handler is invoked iff `count ≤ limit.requests`; the response
carries `X-RateLimit-Remaining = max 0 (limit.requests - count)` and
`X-RateLimit-Limit = limit.requests`; the middleware writes status 429
exactly when `count > limit.requests`.  With `count = 1, …, Q` this gives
the remaining values `Q-1, …, 0`, and status 429 at `count = Q+1`. -/
theorem handle_admit_iff_count_le_quota
    (l : Limiter) (store : Store) (r : Request) (limit : Limit)
    (addr : String) (count t : Int)
    (hrule : l.limitsMap (r.method ++ ":" ++ r.path) = some limit)
    (haddr : getAddress r l.header = Except.ok addr)
    (hincr : store.incr (mkKey addr r.method r.path) = Except.ok count)
    (hexp : expireGo store count (mkKey addr r.method r.path) limit.duration = Except.ok ())
    (httl : limit.requests < count →
      store.ttl (mkKey addr r.method r.path) = Except.ok t) :
    (Handle l store r).handlerInvoked = decide (count ≤ limit.requests) ∧
    getHeader (Handle l store r) "X-RateLimit-Remaining" =
      some (toString (max 0 (limit.requests - count))) ∧
    getHeader (Handle l store r) "X-RateLimit-Limit" = some (toString limit.requests) ∧
    (Handle l store r).status = (if limit.requests < count then some 429 else none) := by
  unfold Handle
  rw [hrule]
  dsimp only
  rw [haddr]
  dsimp only
  rw [hincr]
  dsimp only
  rw [hexp]
  by_cases hc : count > limit.requests
  · rw [if_pos hc, httl hc]
    refine ⟨?_, ?_, ?_, ?_⟩
    · simp [decide_eq_false (not_le.mpr hc)]
    · simp [getHeader, findHeader_setHeaders_remaining]
    · simp [getHeader, findHeader_setHeaders_limit]
    · simp [hc]
  · rw [if_neg hc]
    simp only [gt_iff_lt, not_lt] at hc
    refine ⟨?_, ?_, ?_, ?_⟩
    · simp [decide_eq_true hc]
    · simp [getHeader, findHeader_setHeaders_remaining]
    · simp [getHeader, findHeader_setHeaders_limit]
    · simp [not_lt.mpr hc]

/-- C1 witness: the sixth request against quota 5 is rejected with
status 429, remaining 0, limit 5. -/
theorem handle_admit_iff_count_le_quota_witness :
    (Handle fixLimiter (okStore 6 10) fixReq).handlerInvoked =
      decide ((6 : Int) ≤ fixLimit.requests) ∧
    getHeader (Handle fixLimiter (okStore 6 10) fixReq) "X-RateLimit-Remaining" =
      some (toString (max 0 (fixLimit.requests - 6))) ∧
    getHeader (Handle fixLimiter (okStore 6 10) fixReq) "X-RateLimit-Limit" =
      some (toString fixLimit.requests) ∧
    (Handle fixLimiter (okStore 6 10) fixReq).status =
      (if fixLimit.requests < 6 then some 429 else none) :=
  handle_admit_iff_count_le_quota fixLimiter (okStore 6 10) fixReq fixLimit
    "9.9.9.9" 6 10 rfl rfl rfl rfl (fun _ => rfl)


lemma splitOnChar_ne_nil (c : Char) (s : List Char) : splitOnChar c s ≠ [] := by
  induction s with
  | nil => simp [splitOnChar]
  | cons x xs ih =>
    unfold splitOnChar
    cases h : splitOnChar c xs with
    | nil => simp
    | cons y ys => by_cases hx : x = c <;> simp [hx]

lemma headD_splitOnChar (c : Char) (s : List Char) :
    (splitOnChar c s).headD [] = s.takeWhile (fun x => x ≠ c) := by
  induction s with
  | nil => rfl
  | cons x xs ih =>
    unfold splitOnChar
    cases h : splitOnChar c xs with
    | nil => exact absurd h (splitOnChar_ne_nil c xs)
    | cons y ys =>
      rw [h] at ih
      by_cases hx : x = c
      · simp [hx, List.takeWhile_cons]
      · simp only [if_neg hx, List.headD_cons, List.takeWhile_cons]
        simp [hx]
        simpa using ih

lemma lastIndexOfChar_eq_none_iff (c : Char) (s : List Char) :
    lastIndexOfChar c s = none ↔ c ∉ s := by
  induction s with
  | nil => simp [lastIndexOfChar]
  | cons x xs ih =>
    unfold lastIndexOfChar
    cases h : lastIndexOfChar c xs with
    | some j =>
      have : c ∈ xs := by
        by_contra hm
        rw [ih.mpr hm] at h
        exact Option.noConfusion h
      simp [this]
    | none =>
      have hm : c ∉ xs := ih.mp h
      by_cases hx : x = c
      · simp [hx, hm]
      · simp [hx, hm]
        exact fun h => hx h.symm

lemma lastIndexOfChar_decomp (c : Char) :
    ∀ (s : List Char) (i : Nat), lastIndexOfChar c s = some i →
      ∃ suf, s.take i ++ c :: suf = s ∧ c ∉ suf := by
  intro s
  induction s with
  | nil => intro i h; exact Option.noConfusion h
  | cons x xs ih =>
    intro i h
    unfold lastIndexOfChar at h
    cases h2 : lastIndexOfChar c xs with
    | some j =>
      rw [h2] at h
      obtain ⟨suf, htake, hnot⟩ := ih j h2
      refine ⟨suf, ?_, hnot⟩
      have hi : i = j + 1 := (Option.some.injEq _ _ ▸ h).symm
      subst hi
      simp [List.take_succ_cons, htake]
    | none =>
      rw [h2] at h
      by_cases hx : x = c
      · rw [if_pos hx] at h
        have hi : i = 0 := (Option.some.injEq _ _ ▸ h).symm
        subst hi
        exact ⟨xs, by simp [hx], (lastIndexOfChar_eq_none_iff c xs).mp h2⟩
      · rw [if_neg hx] at h
        exact Option.noConfusion h

lemma splitComma_headD (s : String) :
    (splitComma s).headD "" = String.mk (s.data.takeWhile fun x => x ≠ ',') := by
  unfold splitComma
  cases h : splitOnChar ',' s.data with
  | nil => exact absurd h (splitOnChar_ne_nil ',' s.data)
  | cons y ys =>
    have := headD_splitOnChar ',' s.data
    rw [h] at this
    simp only [List.headD_cons] at this
    simp [this]

/-- C2: the address resolver takes the first comma-separated entry
(head of the comma split equals `takeWhile (· ≠ el)`), trims whitespace,
and strips everything from the last colon onward when a colon is present
(the stripped result, a colon, and a colon-free suffix reassemble the
input; a colon-free input is returned unchanged); in particular
"0.0.0.0:80" resolves to "0.0.0.0", "0.0.0.0" is unchanged, and
"1.1.1.1:80, 2.2.2.2:80" resolves to "1.1.1.1". -/
theorem getAddress_first_entry_trim_strip :
    (∀ s : List Char, ':' ∉ s → ipAddrFromRemoteAddrL s = s) ∧
    (∀ s : List Char, ':' ∈ s →
      ∃ suf, ipAddrFromRemoteAddrL s ++ ':' :: suf = s ∧ ':' ∉ suf) ∧
    (∀ s : String, resolvedOf s =
      ipAddrFromRemoteAddr (trimSpace (String.mk (s.data.takeWhile fun x => x ≠ ',')))) ∧
    getAddressRaw "0.0.0.0:80" = Except.ok "0.0.0.0" ∧
    getAddressRaw "0.0.0.0" = Except.ok "0.0.0.0" ∧
    getAddressRaw "1.1.1.1:80, 2.2.2.2:80" = Except.ok "1.1.1.1" := by
  refine ⟨?_, ?_, ?_, rfl, rfl, rfl⟩
  · intro s h
    unfold ipAddrFromRemoteAddrL
    rw [(lastIndexOfChar_eq_none_iff ':' s).mpr h]
  · intro s h
    unfold ipAddrFromRemoteAddrL
    cases h2 : lastIndexOfChar ':' s with
    | none => exact absurd ((lastIndexOfChar_eq_none_iff ':' s).mp h2) (by simp [h])
    | some i => exact lastIndexOfChar_decomp ':' s i h2
  · intro s
    unfold resolvedOf
    rw [splitComma_headD]

/-- C2 witness: the colon-free and colon-bearing characterizations at
concrete inputs. -/
theorem getAddress_first_entry_trim_strip_witness :
    (':' ∉ "abc".data ∧ ipAddrFromRemoteAddrL "abc".data = "abc".data) ∧
    (':' ∈ "a:b".data ∧
      ∃ suf, ipAddrFromRemoteAddrL "a:b".data ++ ':' :: suf = "a:b".data ∧ ':' ∉ suf) :=
  ⟨⟨by decide, getAddress_first_entry_trim_strip.1 _ (by decide)⟩,
   ⟨by decide, getAddress_first_entry_trim_strip.2.1 _ (by decide)⟩⟩



/-- C3: the counting key used for the store increment is exactly
`"go-ratelimit:(" ++ address ++ ")" ++ method ++ path`, and the trace
contains an `expire` call (on that key, with the rule's duration) iff the
increment returned count 1; for any other count no expire call is made. -/
theorem handle_key_and_expire_iff_first
    (l : Limiter) (store : Store) (r : Request) (limit : Limit)
    (addr : String) (count : Int)
    (hrule : l.limitsMap (r.method ++ ":" ++ r.path) = some limit)
    (haddr : getAddress r l.header = Except.ok addr)
    (hincr : store.incr (mkKey addr r.method r.path) = Except.ok count) :
    (Handle l store r).storeCalls.head? =
      some (StoreCall.incr ("go-ratelimit:(" ++ addr ++ ")" ++ r.method ++ r.path)) ∧
    (Handle l store r).storeCalls.filter isExpireCall =
      (if count = 1
       then [StoreCall.expire ("go-ratelimit:(" ++ addr ++ ")" ++ r.method ++ r.path)
               limit.duration]
       else []) := by
  unfold Handle
  rw [hrule]
  dsimp only
  rw [haddr]
  dsimp only
  rw [hincr]
  dsimp only
  cases hexp : expireGo store count (mkKey addr r.method r.path) limit.duration with
  | error e =>
    by_cases h1 : count = 1 <;>
      simp [h1, isExpireCall, mkKey]
  | ok u =>
    by_cases hc : count > limit.requests
    · rw [if_pos hc]
      cases httl : store.ttl (mkKey addr r.method r.path) with
      | error e => by_cases h1 : count = 1 <;> simp [h1, isExpireCall, mkKey]
      | ok t => by_cases h1 : count = 1 <;> simp [h1, isExpireCall, mkKey]
    · rw [if_neg hc]
      by_cases h1 : count = 1 <;> simp [h1, isExpireCall, mkKey]

/-- C3 witness: a first request (count 1) issues the increment on the
explicit key string and exactly one expire call. -/
theorem handle_key_and_expire_iff_first_witness :
    (Handle fixLimiter (okStore 1 10) fixReq).storeCalls.head? =
      some (StoreCall.incr ("go-ratelimit:(" ++ "9.9.9.9" ++ ")" ++ fixReq.method ++ fixReq.path)) ∧
    (Handle fixLimiter (okStore 1 10) fixReq).storeCalls.filter isExpireCall =
      (if (1 : Int) = 1
       then [StoreCall.expire ("go-ratelimit:(" ++ "9.9.9.9" ++ ")" ++ fixReq.method ++ fixReq.path)
               fixLimit.duration]
       else []) :=
  handle_key_and_expire_iff_first fixLimiter (okStore 1 10) fixReq fixLimit
    "9.9.9.9" 1 rfl rfl rfl



/-- C4 counterexample: a rejection whose TTL query answers the negative
"no expiry" sentinel (-2) carries NO `Retry-After` header at all, while
the rule's configured duration is 30 — the code does not fall back to the
full duration. -/
theorem rejected_negative_ttl_counterexample :
    (Handle fixLimiter (okStore 6 (-2)) fixReq).status = some 429 ∧
    getHeader (Handle fixLimiter (okStore 6 (-2)) fixReq) "Retry-After" = none ∧
    fixLimit.duration = 30 :=
  ⟨rfl, rfl, rfl⟩

/-- C4 amended: on a rejection where the TTL query returns a negative
sentinel, the response carries no `Retry-After` header (the header is
emitted only for a non-negative queried timeout). -/
theorem rejected_negative_ttl_no_retry_after
    (l : Limiter) (store : Store) (r : Request) (limit : Limit)
    (addr : String) (count t : Int)
    (hrule : l.limitsMap (r.method ++ ":" ++ r.path) = some limit)
    (haddr : getAddress r l.header = Except.ok addr)
    (hincr : store.incr (mkKey addr r.method r.path) = Except.ok count)
    (hexp : expireGo store count (mkKey addr r.method r.path) limit.duration = Except.ok ())
    (hc : limit.requests < count)
    (httl : store.ttl (mkKey addr r.method r.path) = Except.ok t)
    (ht : t < 0) :
    (Handle l store r).status = some 429 ∧
    getHeader (Handle l store r) "Retry-After" = none := by
  unfold Handle
  rw [hrule]
  dsimp only
  rw [haddr]
  dsimp only
  rw [hincr]
  dsimp only
  rw [hexp, if_pos hc, httl]
  refine ⟨rfl, ?_⟩
  simp [getHeader, findHeader_setHeaders_retry, not_le.mpr ht]

/-- C4 amended witness: rejection with TTL answer -5 has status 429 and
no `Retry-After` header. -/
theorem rejected_negative_ttl_no_retry_after_witness :
    (Handle fixLimiter (okStore 6 (-5)) fixReq).status = some 429 ∧
    getHeader (Handle fixLimiter (okStore 6 (-5)) fixReq) "Retry-After" = none :=
  rejected_negative_ttl_no_retry_after fixLimiter (okStore 6 (-5)) fixReq fixLimit
    "9.9.9.9" 6 (-5) rfl rfl rfl rfl (by decide) rfl (by decide)

/-- C5 counterexample: a rejected request gets status 429 with an EMPTY
response body — the middleware writes no plain-text body. -/
theorem rejected_no_body_counterexample :
    (Handle fixLimiter (okStore 6 10) fixReq).status = some 429 ∧
    (Handle fixLimiter (okStore 6 10) fixReq).handlerInvoked = false ∧
    (Handle fixLimiter (okStore 6 10) fixReq).body = "" :=
  ⟨rfl, rfl, rfl⟩

/-- C5 amended: every rejected request gets status 429, headers
`X-RateLimit-Remaining: 0` and `X-RateLimit-Limit: <quota>`, a
`Retry-After` equal to the queried timeout when it is non-negative (and
no `Retry-After` otherwise), an empty body, and the wrapped handler is
not invoked. -/
theorem rejected_response_shape
    (l : Limiter) (store : Store) (r : Request) (limit : Limit)
    (addr : String) (count t : Int)
    (hrule : l.limitsMap (r.method ++ ":" ++ r.path) = some limit)
    (haddr : getAddress r l.header = Except.ok addr)
    (hincr : store.incr (mkKey addr r.method r.path) = Except.ok count)
    (hexp : expireGo store count (mkKey addr r.method r.path) limit.duration = Except.ok ())
    (hc : limit.requests < count)
    (httl : store.ttl (mkKey addr r.method r.path) = Except.ok t) :
    (Handle l store r).status = some 429 ∧
    (Handle l store r).handlerInvoked = false ∧
    (Handle l store r).body = "" ∧
    getHeader (Handle l store r) "X-RateLimit-Remaining" = some "0" ∧
    getHeader (Handle l store r) "X-RateLimit-Limit" = some (toString limit.requests) ∧
    getHeader (Handle l store r) "Retry-After" =
      (if 0 ≤ t then some (toString t) else none) := by
  unfold Handle
  rw [hrule]
  dsimp only
  rw [haddr]
  dsimp only
  rw [hincr]
  dsimp only
  rw [hexp, if_pos hc, httl]
  refine ⟨rfl, rfl, rfl, ?_, ?_, ?_⟩
  · have h := findHeader_setHeaders_remaining limit count t
    have hm : max 0 (limit.requests - count) = 0 := by omega
    rw [hm] at h
    simpa [getHeader] using h
  · simp [getHeader, findHeader_setHeaders_limit]
  · simp [getHeader, findHeader_setHeaders_retry]

/-- C5 amended witness: a concrete rejection with TTL 10. -/
theorem rejected_response_shape_witness :
    (Handle fixLimiter (okStore 6 10) fixReq).status = some 429 ∧
    (Handle fixLimiter (okStore 6 10) fixReq).handlerInvoked = false ∧
    (Handle fixLimiter (okStore 6 10) fixReq).body = "" ∧
    getHeader (Handle fixLimiter (okStore 6 10) fixReq) "X-RateLimit-Remaining" = some "0" ∧
    getHeader (Handle fixLimiter (okStore 6 10) fixReq) "X-RateLimit-Limit" =
      some (toString fixLimit.requests) ∧
    getHeader (Handle fixLimiter (okStore 6 10) fixReq) "Retry-After" =
      (if 0 ≤ (10 : Int) then some (toString (10 : Int)) else none) :=
  rejected_response_shape fixLimiter (okStore 6 10) fixReq fixLimit
    "9.9.9.9" 6 10 rfl rfl rfl rfl (by decide) rfl



/-- C6: when the processed address (first comma entry, trimmed, port
stripped) is empty — in particular when the configured header is absent
and hence reads as the empty string — `getAddress` fails with the error
"Could not read address", and the middleware answers 400 without any
store call and without invoking the handler. -/
theorem empty_address_yields_400
    (l : Limiter) (store : Store) (r : Request) (limit : Limit)
    (hrule : l.limitsMap (r.method ++ ":" ++ r.path) = some limit)
    (hempty : resolvedOf (headerValOf r l.header) = "") :
    getAddress r l.header = Except.error "Could not read address" ∧
    Handle l store r =
      { handlerInvoked := false, status := some 400, headers := [], body := "",
        storeCalls := [] } := by
  have herr : getAddress r l.header = Except.error "Could not read address" := by
    unfold getAddress getAddressRaw
    simp [hempty]
  refine ⟨herr, ?_⟩
  unfold Handle
  rw [hrule]
  dsimp only
  rw [herr]

/-- C6 witness: a limiter configured with `X-Forwarded-For` and a
request that does not carry that header gets a 400 with no store calls. -/
theorem empty_address_yields_400_witness :
    getAddress fixReq fwdLimiter.header = Except.error "Could not read address" ∧
    Handle fwdLimiter (okStore 1 10) fixReq =
      { handlerInvoked := false, status := some 400, headers := [], body := "",
        storeCalls := [] } :=
  empty_address_yields_400 fwdLimiter (okStore 1 10) fixReq fixLimit rfl rfl

/-- C7: any failure of the store operations (increment; expire on the
window-creating count; TTL on an over-quota count) makes the middleware
answer 500 immediately, with no headers, no body, no handler invocation,
and no repeated store call (the call trace has no duplicates). -/
theorem store_failure_yields_500
    (l : Limiter) (store : Store) (r : Request) (limit : Limit) (addr : String)
    (hrule : l.limitsMap (r.method ++ ":" ++ r.path) = some limit)
    (haddr : getAddress r l.header = Except.ok addr)
    (hfail : storeFailsAt store (mkKey addr r.method r.path) limit) :
    (Handle l store r).status = some 500 ∧
    (Handle l store r).handlerInvoked = false ∧
    (Handle l store r).headers = [] ∧
    (Handle l store r).body = "" ∧
    (Handle l store r).storeCalls.Nodup := by
  unfold Handle
  rw [hrule]
  dsimp only
  rw [haddr]
  dsimp only
  rcases hfail with ⟨e, he⟩ | ⟨h1, e, he⟩ | ⟨count, hc, hexp, hgt, e, he⟩
  · rw [he]
    exact ⟨rfl, rfl, rfl, rfl, by simp⟩
  · rw [h1]
    dsimp only
    rw [show expireGo store 1 (mkKey addr r.method r.path) limit.duration = Except.error e by
      unfold expireGo
      rw [if_pos rfl, he]]
    refine ⟨rfl, rfl, rfl, rfl, ?_⟩
    simp
  · rw [hc]
    dsimp only
    rw [hexp, if_pos hgt, he]
    refine ⟨rfl, rfl, rfl, rfl, ?_⟩
    by_cases h1 : count = 1 <;> simp [h1]

/-- C7 witness: a store whose increment fails yields a 500 with the
handler not invoked. -/
theorem store_failure_yields_500_witness :
    (Handle fixLimiter incrErrStore fixReq).status = some 500 ∧
    (Handle fixLimiter incrErrStore fixReq).handlerInvoked = false ∧
    (Handle fixLimiter incrErrStore fixReq).headers = [] ∧
    (Handle fixLimiter incrErrStore fixReq).body = "" ∧
    (Handle fixLimiter incrErrStore fixReq).storeCalls.Nodup :=
  store_failure_yields_500 fixLimiter incrErrStore fixReq fixLimit "9.9.9.9"
    rfl rfl (Or.inl ⟨"connection lost", rfl⟩)

lemma foldl_limitsStep_eq (rules : List Limit) :
    ∀ (acc : String → Option Limit) (k : String),
      (rules.foldl limitsStep acc) k =
        match (rules.filter fun x => x.method ++ ":" ++ x.path = k).getLast? with
        | some x => some x
        | none => acc k := by
  induction rules with
  | nil => intro acc k; rfl
  | cons rl rs ih =>
    intro acc k
    rw [List.foldl_cons, ih]
    by_cases hk : rl.method ++ ":" ++ rl.path = k
    · rw [List.filter_cons_of_pos (by simp [hk])]
      cases hrest : (rs.filter fun x => x.method ++ ":" ++ x.path = k) with
      | nil => simp [limitsStep, hk]
      | cons y ys =>
        cases hgl : (y :: ys).getLast? with
        | none => simp at hgl
        | some z => simp [List.getLast?_cons_cons, hgl]
    · rw [List.filter_cons_of_neg (by simp [hk])]
      cases hgl : (rs.filter fun x => x.method ++ ":" ++ x.path = k).getLast? with
      | none => simp [hgl, limitsStep, hk]
      | some z => simp [hgl]

/-- C8: the rule table maps each composite key `method ++ ":" ++ path`
to at most one rule, namely the LAST rule in the input list whose
composite key matches — duplicates are silently overwritten. -/
theorem buildLimitsMap_last_wins (rules : List Limit) (k : String) :
    buildLimitsMap rules k =
      (rules.filter fun x => x.method ++ ":" ++ x.path = k).getLast? := by
  rw [buildLimitsMap, foldl_limitsStep_eq]
  cases (rules.filter fun x => x.method ++ ":" ++ x.path = k).getLast? with
  | none => rfl
  | some x => rfl

/-- C9: a request whose (method, path) has no rule in the table is
forwarded to the wrapped handler completely unmodified: no status
written, no headers added, no store calls performed. -/
theorem no_rule_passthrough
    (l : Limiter) (store : Store) (r : Request)
    (hrule : l.limitsMap (r.method ++ ":" ++ r.path) = none) :
    Handle l store r =
      { handlerInvoked := true, status := none, headers := [], body := "",
        storeCalls := [] } := by
  unfold Handle
  rw [hrule]

/-- C9 witness: a `POST /x` request against a limiter that only limits
`GET /t` passes through untouched. -/
theorem no_rule_passthrough_witness :
    Handle fixLimiter (okStore 1 10) otherReq =
      { handlerInvoked := true, status := none, headers := [], body := "",
        storeCalls := [] } :=
  no_rule_passthrough fixLimiter (okStore 1 10) otherReq rfl

/-- C10: the resolved address is a function of the configured source
alone — of the configured header's value when a header is configured, of
`RemoteAddr` when not.  Two requests with the same method and path that
agree on that source resolve to the same address and the same counting
key, whatever their other headers or transport peer are. -/
theorem address_depends_only_on_source
    (l : Limiter) (r₁ r₂ : Request)
    (hm : r₁.method = r₂.method) (hp : r₁.path = r₂.path)
    (hsrc : if l.header = "" then r₁.remoteAddr = r₂.remoteAddr
            else r₁.headers l.header = r₂.headers l.header) :
    getAddress r₁ l.header = getAddress r₂ l.header ∧
    Except.map (fun a => mkKey a r₁.method r₁.path) (getAddress r₁ l.header) =
      Except.map (fun a => mkKey a r₂.method r₂.path) (getAddress r₂ l.header) := by
  have hv : headerValOf r₁ l.header = headerValOf r₂ l.header := by
    unfold headerValOf
    by_cases h : l.header = "" <;> simp only [h, if_true, if_false] <;>
      simpa [h] using hsrc
  have hga : getAddress r₁ l.header = getAddress r₂ l.header := by
    unfold getAddress
    rw [hv]
  exact ⟨hga, by rw [hga, hm, hp]⟩

/-- C10 witness: two requests sharing `X-Forwarded-For: 7.7.7.7` but
with different transport peers and different other headers resolve to the
same address and counting key. -/
theorem address_depends_only_on_source_witness :
    getAddress proxiedReq1 fwdLimiter.header = getAddress proxiedReq2 fwdLimiter.header ∧
    Except.map (fun a => mkKey a proxiedReq1.method proxiedReq1.path)
        (getAddress proxiedReq1 fwdLimiter.header) =
      Except.map (fun a => mkKey a proxiedReq2.method proxiedReq2.path)
        (getAddress proxiedReq2 fwdLimiter.header) :=
  address_depends_only_on_source fwdLimiter proxiedReq1 proxiedReq2 rfl rfl rfl


end GoLimit
